import Mathlib

/-!
# Verification of the gotcha-server token and error-handling layer

A shallow embedding of the parts of `gotcha-server` that issue, validate and
classify signed tokens:

* `src/server/src/encodings.rs` — the `Base64<A>` key-material wrapper and its
  `TryFrom<String>` validation (built on the base64 crate's canonical decoder
  and `decode_slice` into a `KEY_SIZE` buffer), and its `Debug` rendering;
* `src/server/src/tokens.rs`, `tokens/pow_challenge.rs`, `tokens/auth.rs` —
  the claims model and the JWT encode/decode calls (the jsonwebtoken crate is
  embedded with a symbolic signature: a signature is the algorithm, the key
  bytes and the signed claims, so signature verification is modelled as exact
  comparison — the standard idealisation of an unforgeable MAC);
* `src/server/src/routes/errors.rs` — the per-context error enumerations,
  their `From<db::Error>` reclassification and their HTTP status rendering.

Timestamps are integers (seconds); base64 strings are Lean `String`s whose
`List Char` data stands for the ASCII bytes (a non-ASCII byte is not in either
alphabet, so the decoder rejects it either way).
-/

deriving instance DecidableEq for Except

namespace Gotcha

/-! ## Base64: the base64 crate's canonical alphabets and decoder

The base64 crate's `BASE64_STANDARD` / `BASE64_URL_SAFE` engines require
canonical padding and reject non-zero trailing bits, so decoding is the exact
inverse of encoding.  `decodeChunks` processes the input four characters at a
time; only the final quad may carry `=` padding. -/

/-- Characters of the standard base64 alphabet, in value order. -/
def standardChars : List Char :=
  "ABCDEFGHIJKLMNOPQRSTUVWXYZabcdefghijklmnopqrstuvwxyz0123456789+/".data

/-- Characters of the URL-safe base64 alphabet, in value order. -/
def urlSafeChars : List Char :=
  "ABCDEFGHIJKLMNOPQRSTUVWXYZabcdefghijklmnopqrstuvwxyz0123456789-_".data

/-- Value of a character under an alphabet: its position in the table. -/
def findVal (alpha : List Char) (c : Char) : Option Nat :=
  match alpha with
  | [] => none
  | a :: rest => if a = c then some 0 else (findVal rest c).map (· + 1)

/-- Character of a 6-bit value under an alphabet. -/
def valToChar (alpha : List Char) (v : Nat) : Char :=
  alpha.getD v 'A'

/-- Decoding of the final four-character group, handling `=` padding.
Canonical-padding checks: `=` may appear only in the last one or two
positions, and the unused low bits of the last symbol must be zero (the
crate's `decode_allow_trailing_bits(false)` default). -/
def decodeQuad (alpha : List Char) (c0 c1 c2 c3 : Char) : Option (List Nat) :=
  if c2 = '=' then
    if c3 = '=' then do
      let v0 ← findVal alpha c0
      let v1 ← findVal alpha c1
      if v1 % 16 = 0 then pure [v0 * 4 + v1 / 16] else none
    else none
  else if c3 = '=' then do
    let v0 ← findVal alpha c0
    let v1 ← findVal alpha c1
    let v2 ← findVal alpha c2
    if v2 % 4 = 0 then pure [v0 * 4 + v1 / 16, v1 % 16 * 16 + v2 / 4] else none
  else do
    let v0 ← findVal alpha c0
    let v1 ← findVal alpha c1
    let v2 ← findVal alpha c2
    let v3 ← findVal alpha c3
    pure [v0 * 4 + v1 / 16, v1 % 16 * 16 + v2 / 4, v2 % 4 * 64 + v3]

/-- Canonical base64 decoding of a character sequence: groups of four symbols,
the last group possibly padded; any other length is rejected (the crate's
`DecodePaddingMode::RequireCanonical`). -/
def decodeChunks (alpha : List Char) : List Char → Option (List Nat)
  | [] => some []
  | [_] => none
  | [_, _] => none
  | [_, _, _] => none
  | [c0, c1, c2, c3] => decodeQuad alpha c0 c1 c2 c3
  | c0 :: c1 :: c2 :: c3 :: c4 :: rest => do
    let v0 ← findVal alpha c0
    let v1 ← findVal alpha c1
    let v2 ← findVal alpha c2
    let v3 ← findVal alpha c3
    let bs ← decodeChunks alpha (c4 :: rest)
    pure ([v0 * 4 + v1 / 16, v1 % 16 * 16 + v2 / 4, v2 % 4 * 64 + v3] ++ bs)

/-- Canonical base64 encoding of a byte sequence (the crate's padded
encoders); the inverse used to state that decoding is injective. -/
def encodeChunks (alpha : List Char) : List Nat → List Char
  | [] => []
  | [b0] =>
    [valToChar alpha (b0 / 4), valToChar alpha (b0 % 4 * 16), '=', '=']
  | [b0, b1] =>
    [valToChar alpha (b0 / 4), valToChar alpha (b0 % 4 * 16 + b1 / 16),
     valToChar alpha (b1 % 16 * 4), '=']
  | b0 :: b1 :: b2 :: bs =>
    valToChar alpha (b0 / 4) :: valToChar alpha (b0 % 4 * 16 + b1 / 16) ::
      valToChar alpha (b1 % 16 * 4 + b2 / 64) :: valToChar alpha (b2 % 64) ::
      encodeChunks alpha bs

/-- Base64 decoding of a string under an alphabet (the crate's `decode`). -/
def b64decode (alpha : List Char) (s : String) : Option (List Nat) :=
  decodeChunks alpha s.data

/-- A character found at value `v` is in range and is the table's entry. -/
theorem findVal_spec (alpha : List Char) (c : Char) (v : Nat)
    (h : findVal alpha c = some v) :
    v < alpha.length ∧ valToChar alpha v = c := by
  induction alpha generalizing v with
  | nil => simp [findVal] at h
  | cons a rest ih =>
    by_cases hac : a = c
    · simp only [findVal, if_pos hac] at h
      obtain rfl : (0 : Nat) = v := Option.some.inj h
      exact ⟨Nat.succ_pos _, hac⟩
    · simp only [findVal, if_neg hac, Option.map_eq_some'] at h
      obtain ⟨w, hw, rfl⟩ := h
      obtain ⟨hlt, hc⟩ := ih w hw
      refine ⟨Nat.succ_lt_succ hlt, ?_⟩
      simpa [valToChar, List.getD] using hc

/-- Decoding the final quad is canonical: re-encoding its bytes restores the
original four characters. -/
theorem encode_decodeQuad (alpha : List Char) (h64 : alpha.length ≤ 64)
    (c0 c1 c2 c3 : Char) (bs : List Nat)
    (h : decodeQuad alpha c0 c1 c2 c3 = some bs) :
    encodeChunks alpha bs = [c0, c1, c2, c3] := by
  by_cases h2 : c2 = '='
  · by_cases h3 : c3 = '='
    · simp only [decodeQuad, if_pos h2, if_pos h3] at h
      cases hv0 : findVal alpha c0 with
      | none => simp [hv0] at h
      | some v0 =>
        cases hv1 : findVal alpha c1 with
        | none => simp [hv0, hv1] at h
        | some v1 =>
          simp [hv0, hv1] at h
          obtain ⟨htr, rfl⟩ := h
          obtain ⟨hl0, he0⟩ := findVal_spec alpha c0 v0 hv0
          obtain ⟨hl1, he1⟩ := findVal_spec alpha c1 v1 hv1
          have e0 : (v0 * 4 + v1 / 16) / 4 = v0 := by omega
          have e1 : (v0 * 4 + v1 / 16) % 4 * 16 = v1 := by omega
          simp [encodeChunks, e0, e1, he0, he1, h2, h3]
    · simp [decodeQuad, if_pos h2, if_neg h3] at h
  · by_cases h3 : c3 = '='
    · simp only [decodeQuad, if_neg h2, if_pos h3] at h
      cases hv0 : findVal alpha c0 with
      | none => simp [hv0] at h
      | some v0 =>
        cases hv1 : findVal alpha c1 with
        | none => simp [hv0, hv1] at h
        | some v1 =>
          cases hv2 : findVal alpha c2 with
          | none => simp [hv0, hv1, hv2] at h
          | some v2 =>
            simp [hv0, hv1, hv2] at h
            obtain ⟨htr, rfl⟩ := h
            obtain ⟨hl0, he0⟩ := findVal_spec alpha c0 v0 hv0
            obtain ⟨hl1, he1⟩ := findVal_spec alpha c1 v1 hv1
            obtain ⟨hl2, he2⟩ := findVal_spec alpha c2 v2 hv2
            have e0 : (v0 * 4 + v1 / 16) / 4 = v0 := by omega
            have e1 : (v0 * 4 + v1 / 16) % 4 * 16 + (v1 % 16 * 16 + v2 / 4) / 16 = v1 := by
              omega
            have e2 : (v1 % 16 * 16 + v2 / 4) % 16 * 4 = v2 := by omega
            simp [encodeChunks, e0, e1, e2, he0, he1, he2, h3]
    · simp only [decodeQuad, if_neg h2, if_neg h3] at h
      cases hv0 : findVal alpha c0 with
      | none => simp [hv0] at h
      | some v0 =>
        cases hv1 : findVal alpha c1 with
        | none => simp [hv0, hv1] at h
        | some v1 =>
          cases hv2 : findVal alpha c2 with
          | none => simp [hv0, hv1, hv2] at h
          | some v2 =>
            cases hv3 : findVal alpha c3 with
            | none => simp [hv0, hv1, hv2, hv3] at h
            | some v3 =>
              simp [hv0, hv1, hv2, hv3] at h
              subst h
              obtain ⟨hl0, he0⟩ := findVal_spec alpha c0 v0 hv0
              obtain ⟨hl1, he1⟩ := findVal_spec alpha c1 v1 hv1
              obtain ⟨hl2, he2⟩ := findVal_spec alpha c2 v2 hv2
              obtain ⟨hl3, he3⟩ := findVal_spec alpha c3 v3 hv3
              have e0 : (v0 * 4 + v1 / 16) / 4 = v0 := by omega
              have e1 : (v0 * 4 + v1 / 16) % 4 * 16 + (v1 % 16 * 16 + v2 / 4) / 16 = v1 := by
                omega
              have e2 : (v1 % 16 * 16 + v2 / 4) % 16 * 4 + (v2 % 4 * 64 + v3) / 64 = v2 := by
                omega
              have e3 : (v2 % 4 * 64 + v3) % 64 = v3 := by omega
              simp [encodeChunks, e0, e1, e2, e3, he0, he1, he2, he3]

/-- Canonicity of the full decoder: re-encoding the decoded bytes restores the
exact input, so canonical decoding is injective. -/
theorem encode_decodeChunks (alpha : List Char) (h64 : alpha.length ≤ 64)
    (s : List Char) (bs : List Nat)
    (h : decodeChunks alpha s = some bs) :
    encodeChunks alpha bs = s := by
  induction s using decodeChunks.induct alpha generalizing bs with
  | case1 =>
    simp only [decodeChunks] at h
    obtain rfl := (Option.some.inj h).symm
    rfl
  | case2 c => simp [decodeChunks] at h
  | case3 c c' => simp [decodeChunks] at h
  | case4 c c' c'' => simp [decodeChunks] at h
  | case5 c0 c1 c2 c3 =>
    simp only [decodeChunks] at h
    exact encode_decodeQuad alpha h64 c0 c1 c2 c3 bs h
  | case6 c0 c1 c2 c3 c4 rest ih =>
    simp only [decodeChunks] at h
    cases hv0 : findVal alpha c0 with
    | none => simp [hv0] at h
    | some v0 =>
      cases hv1 : findVal alpha c1 with
      | none => simp [hv0, hv1] at h
      | some v1 =>
        cases hv2 : findVal alpha c2 with
        | none => simp [hv0, hv1, hv2] at h
        | some v2 =>
          cases hv3 : findVal alpha c3 with
          | none => simp [hv0, hv1, hv2, hv3] at h
          | some v3 =>
            cases hbs : decodeChunks alpha (c4 :: rest) with
            | none => simp [hv0, hv1, hv2, hv3, hbs] at h
            | some tail =>
              simp [hv0, hv1, hv2, hv3, hbs] at h
              subst h
              obtain ⟨hl0, he0⟩ := findVal_spec alpha c0 v0 hv0
              obtain ⟨hl1, he1⟩ := findVal_spec alpha c1 v1 hv1
              obtain ⟨hl2, he2⟩ := findVal_spec alpha c2 v2 hv2
              obtain ⟨hl3, he3⟩ := findVal_spec alpha c3 v3 hv3
              have e0 : (v0 * 4 + v1 / 16) / 4 = v0 := by omega
              have e1 : (v0 * 4 + v1 / 16) % 4 * 16 + (v1 % 16 * 16 + v2 / 4) / 16 = v1 := by
                omega
              have e2 : (v1 % 16 * 16 + v2 / 4) % 16 * 4 + (v2 % 4 * 64 + v3) / 64 = v2 := by
                omega
              have e3 : (v2 % 4 * 64 + v3) % 64 = v3 := by omega
              have htail := ih tail hbs
              simp [encodeChunks, e0, e1, e2, e3, he0, he1, he2, he3, htail]

/-- Canonical base64 decoding is injective on its success domain. -/
theorem b64decode_inj (alpha : List Char) (h64 : alpha.length ≤ 64)
    (s1 s2 : String) (bs : List Nat)
    (h1 : b64decode alpha s1 = some bs) (h2 : b64decode alpha s2 = some bs) :
    s1 = s2 := by
  have e1 := encode_decodeChunks alpha h64 s1.data bs h1
  have e2 := encode_decodeChunks alpha h64 s2.data bs h2
  exact String.ext (e1 ▸ e2 ▸ rfl)

/-- Decoding the final quad yields between one and three bytes. -/
theorem decodeQuad_length (alpha : List Char) (c0 c1 c2 c3 : Char)
    (bs : List Nat) (h : decodeQuad alpha c0 c1 c2 c3 = some bs) :
    1 ≤ bs.length ∧ bs.length ≤ 3 := by
  by_cases h2 : c2 = '='
  · by_cases h3 : c3 = '='
    · simp only [decodeQuad, if_pos h2, if_pos h3] at h
      cases hv0 : findVal alpha c0 with
      | none => simp [hv0] at h
      | some v0 =>
        cases hv1 : findVal alpha c1 with
        | none => simp [hv0, hv1] at h
        | some v1 =>
          simp [hv0, hv1] at h
          obtain ⟨-, rfl⟩ := h
          simp
    · simp [decodeQuad, if_pos h2, if_neg h3] at h
  · by_cases h3 : c3 = '='
    · simp only [decodeQuad, if_neg h2, if_pos h3] at h
      cases hv0 : findVal alpha c0 with
      | none => simp [hv0] at h
      | some v0 =>
        cases hv1 : findVal alpha c1 with
        | none => simp [hv0, hv1] at h
        | some v1 =>
          cases hv2 : findVal alpha c2 with
          | none => simp [hv0, hv1, hv2] at h
          | some v2 =>
            simp [hv0, hv1, hv2] at h
            obtain ⟨-, rfl⟩ := h
            simp
    · simp only [decodeQuad, if_neg h2, if_neg h3] at h
      cases hv0 : findVal alpha c0 with
      | none => simp [hv0] at h
      | some v0 =>
        cases hv1 : findVal alpha c1 with
        | none => simp [hv0, hv1] at h
        | some v1 =>
          cases hv2 : findVal alpha c2 with
          | none => simp [hv0, hv1, hv2] at h
          | some v2 =>
            cases hv3 : findVal alpha c3 with
            | none => simp [hv0, hv1, hv2, hv3] at h
            | some v3 =>
              simp [hv0, hv1, hv2, hv3] at h
              subst h
              simp

/-- Length bookkeeping of a successful decode: the input length is a multiple
of four and the output is within two bytes of three quarters of it. -/
theorem decodeChunks_length (alpha : List Char) (s : List Char) (bs : List Nat)
    (h : decodeChunks alpha s = some bs) :
    s.length % 4 = 0 ∧ 3 * (s.length / 4) ≤ bs.length + 2 ∧
      bs.length ≤ 3 * (s.length / 4) := by
  induction s using decodeChunks.induct alpha generalizing bs with
  | case1 =>
    simp only [decodeChunks] at h
    obtain rfl := (Option.some.inj h).symm
    simp
  | case2 c => simp [decodeChunks] at h
  | case3 c c' => simp [decodeChunks] at h
  | case4 c c' c'' => simp [decodeChunks] at h
  | case5 c0 c1 c2 c3 =>
    simp only [decodeChunks] at h
    have := decodeQuad_length alpha c0 c1 c2 c3 bs h
    simp only [List.length_cons, List.length_nil]
    refine ⟨by norm_num, ?_, ?_⟩ <;> omega
  | case6 c0 c1 c2 c3 c4 rest ih =>
    simp only [decodeChunks] at h
    cases hv0 : findVal alpha c0 with
    | none => simp [hv0] at h
    | some v0 =>
      cases hv1 : findVal alpha c1 with
      | none => simp [hv0, hv1] at h
      | some v1 =>
        cases hv2 : findVal alpha c2 with
        | none => simp [hv0, hv1, hv2] at h
        | some v2 =>
          cases hv3 : findVal alpha c3 with
          | none => simp [hv0, hv1, hv2, hv3] at h
          | some v3 =>
            cases hbs : decodeChunks alpha (c4 :: rest) with
            | none => simp [hv0, hv1, hv2, hv3, hbs] at h
            | some tail =>
              simp [hv0, hv1, hv2, hv3, hbs] at h
              subst h
              have := ih tail hbs
              simp only [List.length_cons] at this ⊢
              obtain ⟨hm, hlo, hhi⟩ := this
              refine ⟨by omega, by omega, by omega⟩

/-! ## KeyMaterial: `encodings.rs`

`Base64<A>` wraps the canonical encoded string; `TryFrom<String>` validates by
decoding into a `KEY_SIZE`-byte buffer with the crate's `decode_slice`, which
first rejects inputs whose conservative decoded-length estimate
(`ceil(len/4) * 3`) exceeds the buffer and then decodes canonically. -/

/-- Default key size in bytes (`encodings.rs`: `pub const KEY_SIZE: usize`). -/
def KEY_SIZE : Nat := 48

/-- Alphabet markers of `Base64<A>`: `Standard` and `UrlSafe`. -/
inductive Alpha
  | standard
  | urlSafe
deriving DecidableEq

/-- Character table of an alphabet marker. -/
def Alpha.chars : Alpha → List Char
  | .standard => standardChars
  | .urlSafe => urlSafeChars

/-- The `Base64<A>` wrapper: an encoded string tagged by its alphabet. -/
structure Base64 (A : Alpha) where
  s : String
deriving DecidableEq

/-- Error type of the crate's `decode_slice` (`DecodeSliceError`): an invalid
input or an output that does not fit the buffer. -/
inductive DecodeSliceErr
  | DecodeErr
  | OutputSliceTooSmall
deriving DecidableEq

/-- The base64 crate's `decode_slice` into a buffer of `bufLen` bytes: the
conservative estimate `ceil(len/4) * 3` must fit the buffer, then the input
must decode canonically.  The function is total — the Rust implementation
never panics. -/
def decode_slice (alpha : List Char) (bufLen : Nat) (s : String) :
    Except DecodeSliceErr (List Nat) :=
  if bufLen < (s.length + 3) / 4 * 3 then .error .OutputSliceTooSmall
  else
    match decodeChunks alpha s.data with
    | some bs => .ok bs
    | none => .error .DecodeErr

/-- The `TryFrom<String>` impls of `Base64<Standard>` / `Base64<UrlSafe>`:
decode into a `[0; KEY_SIZE]` buffer, keep the original string on success. -/
def Base64.tryFrom (A : Alpha) (value : String) :
    Except DecodeSliceErr (Base64 A) :=
  (decode_slice A.chars KEY_SIZE value).map fun _ => Base64.mk value

/-- Escaping used by Rust's `Debug` for `str` on the characters that matter
here (quote and backslash; base64 text contains neither). -/
def escapeDebugChar (c : Char) : List Char :=
  if c = '"' ∨ c = '\\' then ['\\', c] else [c]

/-- Debug escaping of a whole string. -/
def escapeDebugStr (s : String) : String :=
  String.mk ((s.data.map escapeDebugChar).flatten)

/-- The `Debug` impls of `Base64<Standard>` and `Base64<UrlSafe>`
(`encodings.rs`): `f.debug_tuple("Base64<...>").field(&self.0)`, which prints
the wrapped string itself. -/
def debugFmt (A : Alpha) (b : Base64 A) : String :=
  (match A with
    | .standard => "Base64<Standard>(\""
    | .urlSafe => "Base64<UrlSafe>(\"") ++ escapeDebugStr b.s ++ "\")"

/-- The `secrecy::DebugSecret` impl for `Base64<A>`: the trait's default
rendering used when the value sits inside a `secrecy::Secret`, an opaque
placeholder with no payload. -/
def debugSecretFmt (A : Alpha) (_ : Base64 A) : String :=
  "[REDACTED]"

/-! ## The jsonwebtoken crate, symbolically

`tokens.rs` / `tokens/pow_challenge.rs` / `tokens/auth.rs` call the
jsonwebtoken crate.  A token is its header algorithm, its (possibly tampered)
claims and a signature; a signature is modelled symbolically as the triple
(algorithm, key bytes, signed claims), so verification — recomputing the MAC
over the transported claims and comparing — is equality of triples.  For the
asymmetric RS256 family the key bytes stand for the key pair's identity.
`Claims P` is the raw claim set of the token's JSON payload: the registered
claims each `Option` (absent vs. present) plus an opaque payload `P`
(`#[serde(flatten)]` of the wrapped type). -/

/-- Signing algorithms used by the server (`jsonwebtoken::Algorithm`). -/
inductive Algorithm
  | HS256
  | RS256
deriving DecidableEq

/-- Raw claim set carried by a token's payload. -/
structure Claims (P : Type) where
  exp : Option Int
  iat : Option Int
  aud : Option (List String)
  sub : Option String
  iss : Option String
  payload : P
deriving DecidableEq

/-- Symbolic signature: algorithm, key bytes and the claims that were signed. -/
structure Sig (P : Type) where
  alg : Algorithm
  key : List Nat
  signed : Claims P
deriving DecidableEq

/-- A serialized JWT: header algorithm, transported claims, signature.  A
tampered token carries claims that differ from `sig.signed`. -/
structure Token (P : Type) where
  alg : Algorithm
  claims : Claims P
  sig : Sig P
deriving DecidableEq

/-- Error kinds of `jsonwebtoken::errors::Error` relevant here. -/
inductive JwtError
  | InvalidSignature
  | InvalidAlgorithm
  | ExpiredSignature
  | MissingRequiredClaim (claim : String)
  | InvalidAudience
  | Base64Error
  | JsonError
deriving DecidableEq

/-- The jsonwebtoken `Validation` struct (the fields the server touches). -/
structure Validation where
  algorithms : List Algorithm
  required_spec_claims : List String
  validate_exp : Bool
  leeway : Int
  aud : Option (List String)
  validate_aud : Bool
deriving DecidableEq

/-- `Validation::new(alg)`: requires `exp`, validates expiry with the default
60-second leeway, validates the audience but with no configured audience set,
and accepts only `alg`. -/
def Validation.new (alg : Algorithm) : Validation :=
  { algorithms := [alg]
    required_spec_claims := ["exp"]
    validate_exp := true
    leeway := 60
    aud := none
    validate_aud := true }

/-- Presence of a registered claim in the raw claim set (what
`required_spec_claims` inspects). -/
def Claims.hasSpecClaim {P : Type} (c : Claims P) : String → Bool
  | "exp" => c.exp.isSome
  | "aud" => c.aud.isSome
  | "iss" => c.iss.isSome
  | "sub" => c.sub.isSome
  | _ => true

/-- Required-claim check: the first required claim absent from the token. -/
def checkRequired {P : Type} (c : Claims P) (v : Validation) : Option JwtError :=
  (v.required_spec_claims.find? fun r => ! c.hasSpecClaim r).map
    fun r => JwtError.MissingRequiredClaim r

/-- Expiry check: a present `exp` earlier than `now - leeway` is expired. -/
def checkExp {P : Type} (c : Claims P) (v : Validation) (now : Int) :
    Option JwtError :=
  if v.validate_exp then
    match c.exp with
    | some e => if e < now - v.leeway then some JwtError.ExpiredSignature else none
    | none => none
  else none

/-- Audience check: when a correct audience is configured and the token has an
`aud`, the two sets must intersect. -/
def checkAud {P : Type} (c : Claims P) (v : Validation) : Option JwtError :=
  if v.validate_aud then
    match v.aud, c.aud with
    | some va, some ca =>
      if ca.any fun a => va.contains a then none else some JwtError.InvalidAudience
    | _, _ => none
  else none

/-- Claim validation in the crate's order: required claims, expiry, audience. -/
def validateClaims {P : Type} (c : Claims P) (v : Validation) (now : Int) :
    Option JwtError :=
  match checkRequired c v with
  | some e => some e
  | none =>
    match checkExp c v now with
    | some e => some e
    | none => checkAud c v

/-- `jsonwebtoken::encode`: sign the claims under the algorithm and key. -/
def encodeToken {P : Type} (alg : Algorithm) (claims : Claims P)
    (key : List Nat) : Token P :=
  { alg := alg, claims := claims, sig := { alg := alg, key := key, signed := claims } }

/-- `jsonwebtoken::decode`: reject a header algorithm outside the validation's
set, verify the signature, then validate the claims. -/
def decodeToken {P : Type} [DecidableEq P] (tok : Token P) (key : List Nat)
    (v : Validation) (now : Int) : Except JwtError (Claims P) :=
  if tok.alg ∈ v.algorithms then
    if tok.sig = { alg := tok.alg, key := key, signed := tok.claims } then
      match validateClaims tok.claims v now with
      | some e => Except.error e
      | none => Except.ok tok.claims
    else Except.error JwtError.InvalidSignature
  else Except.error JwtError.InvalidAlgorithm

/-- `EncodingKey::from_base64_secret` / `DecodingKey::from_base64_secret`:
standard-alphabet base64 decoding of the secret; an invalid secret is a
base64 error. -/
def from_base64_secret (secret : String) : Except JwtError (List Nat) :=
  match b64decode standardChars secret with
  | some bytes => Except.ok bytes
  | none => Except.error JwtError.Base64Error

/-! ## ClaimsModel: `tokens.rs` -/

/-- `TimeClaims::<T>::with_timeout(timeout, other)` evaluated at time `now`
(Rust reads `OffsetDateTime::now_utc()`): `exp = now + timeout`, `iat = now`,
no audience/subject/issuer claims, payload flattened in. -/
def TimeClaims.withTimeout {T : Type} (now timeout : Int) (other : T) :
    Claims T :=
  { exp := some (now + timeout)
    iat := some now
    aud := none
    sub := none
    iss := none
    payload := other }

/-- `TimeClaims::build_validation`: require `exp`, validate expiry, zero
leeway. -/
def TimeClaims.buildValidation (v : Validation) : Validation :=
  { v with
    required_spec_claims := v.required_spec_claims.insert "exp"
    validate_exp := true
    leeway := 0 }

/-- The canonical service audience inserted by `AuthClaims::build_validation`. -/
def SERVICE_AUDIENCE : String := "https://gotcha.land/"

/-- `AuthClaims::build_validation`: also require `aud`, `iss` and `sub`, and
insert the canonical service audience into the validation's audience set. -/
def AuthClaims.buildValidation (v : Validation) : Validation :=
  { v with
    required_spec_claims :=
      ((v.required_spec_claims.insert "aud").insert "iss").insert "sub"
    aud := some ((v.aud.getD []).insert SERVICE_AUDIENCE)
    validate_aud := true }

/-! ## ProofOfWorkEngine tokens: `tokens/pow_challenge.rs` -/

/-- Modelled from the spec: `PowChallenge` (`analysis/proof_of_work.rs` is not
among the staged sources) is "a puzzle descriptor plus a target difficulty";
its solution-checking predicate is left as a parameter where needed, since the
spec leaves the puzzle construction open. -/
structure PowChallenge where
  descriptor : Nat
  difficulty : Nat
deriving DecidableEq

/-- Algorithm used for proof of work tokens (`JWT_POW_ALGORITHM`). -/
def JWT_POW_ALGORITHM : Algorithm := Algorithm.HS256

/-- Validation built by `pow_challenge::decode`: `Validation::new(HS256)`
refined by `TimeClaims::build_validation`. -/
def powValidation : Validation :=
  TimeClaims.buildValidation (Validation.new JWT_POW_ALGORITHM)

/-- `pow_challenge::encode` at time `now`: a 300-second `TimeClaims` wrapper
around the challenge, signed with HS256 under the base64-decoded secret. -/
def pow_encode (now : Int) (pow_challenge : PowChallenge) (enc_key : String) :
    Except JwtError (Token PowChallenge) :=
  match from_base64_secret enc_key with
  | Except.error e => Except.error e
  | Except.ok key =>
    Except.ok (encodeToken JWT_POW_ALGORITHM
      (TimeClaims.withTimeout now 300 pow_challenge) key)

/-- `pow_challenge::decode` at time `now`: base64-decode the secret, decode
the JWT under `powValidation`, return the embedded challenge. -/
def pow_decode (jwt : Token PowChallenge) (dec_key_b64 : String) (now : Int) :
    Except JwtError PowChallenge :=
  match from_base64_secret dec_key_b64 with
  | Except.error e => Except.error e
  | Except.ok key =>
    match decodeToken jwt key powValidation now with
    | Except.error e => Except.error e
    | Except.ok claims => Except.ok claims.payload

/-! ## Auth tokens: `tokens/auth.rs` -/

/-- Algorithm used for authentication tokens (`JWT_AUTH_ALGORITHM`). -/
def JWT_AUTH_ALGORITHM : Algorithm := Algorithm.RS256

/-- Validation built by `auth::decode`: `Validation::new(RS256)` refined by
`AuthClaims::build_validation` then `TimeClaims::build_validation`. -/
def authValidation : Validation :=
  TimeClaims.buildValidation
    (AuthClaims.buildValidation (Validation.new JWT_AUTH_ALGORITHM))

/-- The deserialized `AuthClaims<()>` returned by `auth::decode`: audience
list (normalized by `single_or_sequence`), subject and issuer. -/
structure AuthClaimsData where
  aud : List String
  sub : String
  iss : String
deriving DecidableEq

/-- `auth::decode` at time `now`: decode the JWT under `authValidation`, then
deserialize the claims as `AuthClaims<()>` — which needs `aud`, `sub` and
`iss` to be present (no serde defaults). -/
def auth_decode (jwt : Token Unit) (dec_key : List Nat) (now : Int) :
    Except JwtError AuthClaimsData :=
  match decodeToken jwt dec_key authValidation now with
  | Except.error e => Except.error e
  | Except.ok claims =>
    match claims.aud, claims.sub, claims.iss with
    | some aud, some sub, some iss =>
      Except.ok { aud := aud, sub := sub, iss := iss }
    | _, _, _ => Except.error JwtError.JsonError

/-! ## ErrorTaxonomy: `routes/errors.rs`

Responses are reduced to their HTTP status code — the only observable the
claims speak about.  The storage layer (`db.rs` is not among the staged
sources) is modelled from the spec and from the patterns `errors.rs` matches
on: a constraint violation carries a kind (uniqueness / primary key / foreign
key / value range) and a source whose `constraint()` optionally names the
violated constraint. -/

/-- An HTTP response, reduced to its status code. -/
structure Response where
  status : Nat
deriving DecidableEq

/-- Membership of a status in the 4xx client-error class. -/
def is4xx (r : Response) : Prop :=
  400 ≤ r.status ∧ r.status ≤ 499

instance (r : Response) : Decidable (is4xx r) := by
  unfold is4xx
  infer_instance

/-- Modelled from the spec: the storage layer's constraint kinds (uniqueness,
foreign-key, value-range), as matched by `errors.rs` (`db::ConstraintKind`). -/
inductive ConstraintKind
  | PrimaryKey
  | UniqueKey
  | ForeignKey
  | ValueRange
deriving DecidableEq

/-- Modelled from the spec: the source of a storage constraint violation; its
`constraint()` accessor optionally names the violated constraint. -/
structure DbSource where
  constraint : Option String
deriving DecidableEq

/-- Modelled from the spec: the storage layer's closed error type
(`db::Error`) — a constraint violation with kind and source, or any other
storage failure. -/
inductive DbError
  | Constraint (source : DbSource) (kind : ConstraintKind)
  | Other (msg : String)
deriving DecidableEq

/-- A boxed `anyhow::Error`: either a wrapped `db::Error` (which `downcast`
recovers through any added context) or any other error. -/
inductive AnyError
  | db (e : DbError)
  | other (msg : String)
deriving DecidableEq

/-- `anyhow::Error::downcast::<db::Error>().ok()`. -/
def AnyError.downcastDb : AnyError → Option DbError
  | .db e => some e
  | .other _ => none

/-- Errors regarding challenge operations (`ChallengeError`). -/
inductive ChallengeError
  | InvalidKey
  | InvalidOrigin
  | InvalidProofOfWork (e : JwtError)
  | FailedProofOfWork
  | NoMatchingChallenge
  | DomainNotAllowed
  | Unexpected (e : AnyError)
deriving DecidableEq

/-- Errors regarding console operations (`ConsoleError`). -/
inductive ConsoleError
  | NotFound (what : String)
  | Forbidden
  | Duplicate
  | InvalidInput (what : String)
  | Unexpected (e : AnyError)
deriving DecidableEq

/-- Errors regarding admin operations (`AdminError`). -/
inductive AdminError
  | NotUnique (what : String)
  | InvalidDimensions
  | InvalidUrl
  | NotFound (url : String)
  | Unauthorized
  | Unexpected (e : AnyError)
deriving DecidableEq

/-- `impl From<db::Error> for ChallengeError`: always wrap in `Unexpected`
with database context. -/
def challengeFromDb (db_err : DbError) : Option ChallengeError :=
  some (ChallengeError.Unexpected (AnyError.db db_err))

/-- `impl From<db::Error> for ConsoleError`.  `none` models the panic in the
first match arm's guard, which calls `source.constraint().unwrap()` on a
foreign-key violation whose source names no constraint; a foreign-key
violation with another name falls through the second arm's pattern (its kind
does not match) to the catch-all. -/
def consoleFromDb (db_err : DbError) : Option ConsoleError :=
  match db_err with
  | DbError.Constraint source ConstraintKind.ForeignKey =>
    match source.constraint with
    | none => none
    | some name =>
      if name = "api_key_console_id_fkey" then some ConsoleError.Forbidden
      else some (ConsoleError.Unexpected (AnyError.db db_err))
  | DbError.Constraint source ConstraintKind.PrimaryKey
  | DbError.Constraint source ConstraintKind.UniqueKey =>
    match source.constraint with
    | some c =>
      if c = "api_key_secret_unique" ∨ c = "api_key_pkey" then
        some ConsoleError.Duplicate
      else some (ConsoleError.Unexpected (AnyError.db db_err))
    | none => some (ConsoleError.Unexpected (AnyError.db db_err))
  | _ => some (ConsoleError.Unexpected (AnyError.db db_err))

/-- `impl From<db::Error> for AdminError`: any value-range violation is
invalid dimensions; a primary-key violation named `challenge_pkey` is a
duplicate challenge URL; everything else is unexpected. -/
def adminFromDb (db_err : DbError) : Option AdminError :=
  match db_err with
  | DbError.Constraint _ ConstraintKind.ValueRange =>
    some AdminError.InvalidDimensions
  | DbError.Constraint source ConstraintKind.PrimaryKey =>
    if source.constraint = some "challenge_pkey" then
      some (AdminError.NotUnique "Challenge url")
    else some (AdminError.Unexpected (AnyError.db db_err))
  | _ => some (AdminError.Unexpected (AnyError.db db_err))

/-- `try_unwrap_db_error`: downcast the boxed error to a `db::Error`, convert
through the context's `From` impl (whose panic propagates as `none`), consult
`and_then`, and fall back to 500 when anything declines. -/
def try_unwrap_db_error {E : Type} (fromDb : DbError → Option E)
    (e : AnyError) (and_then : E → Option Response) : Option Response :=
  match e.downcastDb with
  | some db_err =>
    match fromDb db_err with
    | none => none
    | some err => some ((and_then err).getD { status := 500 })
  | none => some { status := 500 }

/-- Direct response of a classified (non-`Unexpected`) `ChallengeError` arm of
its `IntoResponse` impl. -/
def challengeClassifiedResponse : ChallengeError → Option Response
  | ChallengeError.InvalidKey => some { status := 403 }
  | ChallengeError.InvalidOrigin => some { status := 422 }
  | ChallengeError.InvalidProofOfWork _ => some { status := 400 }
  | ChallengeError.FailedProofOfWork => some { status := 400 }
  | ChallengeError.NoMatchingChallenge => some { status := 404 }
  | ChallengeError.DomainNotAllowed => some { status := 403 }
  | ChallengeError.Unexpected _ => none

/-- `impl IntoResponse for ChallengeError`: an `Unexpected` error is unwrapped
through `try_unwrap_db_error` (re-rendering any non-`Unexpected`
reclassification); every other variant renders its own status. -/
def challengeIntoResponse (e : ChallengeError) : Option Response :=
  match e with
  | ChallengeError.Unexpected a =>
    try_unwrap_db_error challengeFromDb a fun err =>
      match err with
      | ChallengeError.Unexpected _ => none
      | other => challengeClassifiedResponse other
  | other => challengeClassifiedResponse other

/-- Direct response of a classified (non-`Unexpected`) `ConsoleError` arm of
its `IntoResponse` impl; note `Duplicate` renders
`StatusCode::INTERNAL_SERVER_ERROR`. -/
def consoleClassifiedResponse : ConsoleError → Option Response
  | ConsoleError.NotFound _ => some { status := 404 }
  | ConsoleError.Forbidden => some { status := 403 }
  | ConsoleError.Duplicate => some { status := 500 }
  | ConsoleError.InvalidInput _ => some { status := 422 }
  | ConsoleError.Unexpected _ => none

/-- `impl IntoResponse for ConsoleError`; `none` models the panic that
`consoleFromDb` can raise while unwrapping. -/
def consoleIntoResponse (e : ConsoleError) : Option Response :=
  match e with
  | ConsoleError.Unexpected a =>
    try_unwrap_db_error consoleFromDb a fun err =>
      match err with
      | ConsoleError.Unexpected _ => none
      | other => consoleClassifiedResponse other
  | other => consoleClassifiedResponse other

/-- Direct response of a classified (non-`Unexpected`) `AdminError` arm of
its `IntoResponse` impl. -/
def adminClassifiedResponse : AdminError → Option Response
  | AdminError.NotUnique _ => some { status := 409 }
  | AdminError.InvalidDimensions => some { status := 422 }
  | AdminError.InvalidUrl => some { status := 400 }
  | AdminError.NotFound _ => some { status := 404 }
  | AdminError.Unauthorized => some { status := 401 }
  | AdminError.Unexpected _ => none

/-- `impl IntoResponse for AdminError`. -/
def adminIntoResponse (e : AdminError) : Option Response :=
  match e with
  | AdminError.Unexpected a =>
    try_unwrap_db_error adminFromDb a fun err =>
      match err with
      | AdminError.Unexpected _ => none
      | other => adminClassifiedResponse other
  | other => adminClassifiedResponse other

/-! ## ProofOfWorkEngine submission -/

/-- Modelled from the spec: the proof-of-work submission step of the
challenge handlers (`routes/challenge.rs` is not among the staged sources).
"Decode first (signature + expiry + structural checks) — any failure here
classifies as invalid proof of work"; `ChallengeError::InvalidProofOfWork`
carries the jsonwebtoken error through its `#[from]` conversion.  "Only if
decode succeeds does the engine apply the puzzle's own validity predicate to
the solution; a structurally-valid-but-wrong solution classifies as failed
proof of work."  The predicate itself is a parameter: the spec leaves the
puzzle construction open. -/
def processProofOfWork (is_valid_solution : PowChallenge → Nat → Bool)
    (challenge : Token PowChallenge) (solution : Nat) (dec_key_b64 : String)
    (now : Int) : Except ChallengeError PowChallenge :=
  match pow_decode challenge dec_key_b64 now with
  | Except.error e => Except.error (ChallengeError.InvalidProofOfWork e)
  | Except.ok pc =>
    if is_valid_solution pc solution then Except.ok pc
    else Except.error ChallengeError.FailedProofOfWork

/-! ## Concrete sample values used by the witnesses -/

/-- Sample proof-of-work challenge. -/
def sampleChallenge : PowChallenge :=
  { descriptor := 1, difficulty := 2 }

/-- Key bytes of the sample secret "QUFB". -/
def sampleKeyBytes : List Nat := [65, 65, 65]

/-- Sample proof-of-work token: `sampleChallenge` encoded at time 0 under the
secret "QUFB". -/
def samplePowToken : Token PowChallenge :=
  encodeToken JWT_POW_ALGORITHM (TimeClaims.withTimeout 0 300 sampleChallenge)
    sampleKeyBytes

/-- Sample validity predicate: the solution must equal the difficulty. -/
def sampleIsValid (pc : PowChallenge) (sol : Nat) : Bool :=
  sol == pc.difficulty

/-- Sample auth claim set carrying the canonical audience. -/
def sampleAuthClaims : Claims Unit :=
  { exp := some 100, iat := some 0, aud := some [SERVICE_AUDIENCE],
    sub := some "user", iss := some "issuer", payload := () }

/-- Sample auth token signed under key identity `[1, 2, 3]`. -/
def sampleAuthToken : Token Unit :=
  encodeToken JWT_AUTH_ALGORITHM sampleAuthClaims [1, 2, 3]

/-! ## The claims -/

/-- The standard alphabet holds 64 characters. -/
theorem standardChars_length : standardChars.length ≤ 64 := by decide

/-- C1: tenant isolation of proof-of-work tokens — a token produced by
`pow_challenge::encode` under secret `k1` fails `pow_challenge::decode` under
any secret `k2 ≠ k1` with an `Err` (a base64 error for an undecodable secret,
otherwise a signature error), never yielding the embedded challenge. -/
theorem pow_tenant_isolation (pc : PowChallenge) (k1 k2 : String)
    (t now : Int) (tok : Token PowChallenge)
    (henc : pow_encode t pc k1 = Except.ok tok) (hne : k2 ≠ k1) :
    ∃ e, pow_decode tok k2 now = Except.error e ∧
      (e = JwtError.Base64Error ∨ e = JwtError.InvalidSignature) := by
  simp only [pow_encode, from_base64_secret] at henc
  cases hk1 : b64decode standardChars k1 with
  | none => simp [hk1] at henc
  | some key1 =>
    simp only [hk1] at henc
    obtain rfl : _ = tok := Except.ok.inj henc
    cases hk2 : b64decode standardChars k2 with
    | none =>
      refine ⟨JwtError.Base64Error, ?_, Or.inl rfl⟩
      simp [pow_decode, from_base64_secret, hk2]
    | some key2 =>
      have hkeys : key2 ≠ key1 := by
        intro hEq
        rw [hEq] at hk2
        exact hne (b64decode_inj standardChars standardChars_length k2 k1 key1 hk2 hk1)
      refine ⟨JwtError.InvalidSignature, ?_, Or.inr rfl⟩
      simp only [pow_decode, from_base64_secret, hk2, decodeToken, encodeToken]
      rw [if_pos (by decide), if_neg ?_]
      intro hsig
      exact hkeys (Sig.mk.inj hsig).2.1.symm

/-- C1 witness: concrete secrets "QUFB" and "QkJC". -/
theorem pow_tenant_isolation_witness :
    ∃ e, pow_decode samplePowToken "QkJC" 100 = Except.error e ∧
      (e = JwtError.Base64Error ∨ e = JwtError.InvalidSignature) :=
  pow_tenant_isolation sampleChallenge "QUFB" "QkJC" 0 100
    samplePowToken (by decide) (by decide)

/-- C2: sign-then-decode round trip — a challenge encoded at time `t` under
key `k` decodes under the same key at any time up to the 300-second expiry,
returning the original payload. -/
theorem pow_roundtrip (pc : PowChallenge) (k : String) (t now : Int)
    (tok : Token PowChallenge) (henc : pow_encode t pc k = Except.ok tok)
    (hnow : now ≤ t + 300) :
    pow_decode tok k now = Except.ok pc := by
  simp only [pow_encode, from_base64_secret] at henc
  cases hk : b64decode standardChars k with
  | none => simp [hk] at henc
  | some key =>
    simp only [hk] at henc
    obtain rfl : _ = tok := Except.ok.inj henc
    have hexp : ¬ ((t + 300 : Int) < now) := by omega
    simp [pow_decode, from_base64_secret, hk, decodeToken, encodeToken,
      validateClaims, checkRequired, checkExp, checkAud, powValidation,
      TimeClaims.buildValidation, Validation.new, JWT_POW_ALGORITHM,
      TimeClaims.withTimeout, Claims.hasSpecClaim, List.insert, List.find?,
      hexp]

/-- C2 witness: concrete round trip under key "QUFB". -/
theorem pow_roundtrip_witness :
    pow_decode samplePowToken "QUFB" 100 = Except.ok sampleChallenge :=
  pow_roundtrip sampleChallenge "QUFB" 0 100 samplePowToken
    (by decide) (by decide)

/-- Validation performed on an expired claim set always reports an error:
the `exp` claim is required, present, and past. -/
theorem validateClaims_expired (tok : Token PowChallenge) (now e : Int)
    (hexp : tok.claims.exp = some e) (hlate : e < now) :
    validateClaims tok.claims powValidation now ≠ none := by
  unfold validateClaims
  cases hr : checkRequired tok.claims powValidation with
  | some err => simp
  | none =>
    have hce : checkExp tok.claims powValidation now = some JwtError.ExpiredSignature := by
      simp only [checkExp, hexp, powValidation, TimeClaims.buildValidation,
        Validation.new, if_pos]
      rw [if_pos (by omega)]
    simp [hce]

/-- C3: expiry dominates signature validity — decoding any token after its
`expires_at` fails; with a valid HS256 signature the error is specifically
the expiration error; and the validation built for proof-of-work decoding
requires `exp`, validates expiry, and applies zero leeway. -/
theorem pow_expiry_dominates (tok : Token PowChallenge) (k : String)
    (now e : Int) (hexp : tok.claims.exp = some e) (hlate : e < now) :
    (∃ err, pow_decode tok k now = Except.error err) ∧
    (∀ key, b64decode standardChars k = some key →
      tok.alg = Algorithm.HS256 →
      tok.sig = { alg := Algorithm.HS256, key := key, signed := tok.claims } →
      pow_decode tok k now = Except.error JwtError.ExpiredSignature) ∧
    "exp" ∈ powValidation.required_spec_claims ∧
    powValidation.validate_exp = true ∧ powValidation.leeway = 0 := by
  refine ⟨?_, ?_, by decide, by decide, by decide⟩
  · cases hdec : pow_decode tok k now with
    | error err => exact ⟨err, rfl⟩
    | ok pc =>
      exfalso
      simp only [pow_decode, from_base64_secret] at hdec
      cases hk : b64decode standardChars k with
      | none => simp [hk] at hdec
      | some key =>
        simp only [hk] at hdec
        cases hd : decodeToken tok key powValidation now with
        | error err => rw [hd] at hdec; simp at hdec
        | ok claims =>
          unfold decodeToken at hd
          by_cases ha : tok.alg ∈ powValidation.algorithms
          · rw [if_pos ha] at hd
            by_cases hs : tok.sig = { alg := tok.alg, key := key, signed := tok.claims }
            · rw [if_pos hs] at hd
              cases hv : validateClaims tok.claims powValidation now with
              | some err => rw [hv] at hd; exact absurd hd (by simp)
              | none => exact validateClaims_expired tok now e hexp hlate hv
            · rw [if_neg hs] at hd
              exact absurd hd (by simp)
          · rw [if_neg ha] at hd
            exact absurd hd (by simp)
  · intro key hkey halg hsig
    have hreq : checkRequired tok.claims powValidation = none := by
      have : Claims.hasSpecClaim tok.claims "exp" = true := by
        simp [Claims.hasSpecClaim, hexp]
      simp [checkRequired, powValidation, TimeClaims.buildValidation,
        Validation.new, List.insert, List.find?, this]
    have hce : checkExp tok.claims powValidation now = some JwtError.ExpiredSignature := by
      simp only [checkExp, hexp, powValidation, TimeClaims.buildValidation,
        Validation.new, if_pos]
      rw [if_pos (by omega)]
    have hval : validateClaims tok.claims powValidation now =
        some JwtError.ExpiredSignature := by
      unfold validateClaims
      rw [hreq, hce]
    have hdec : decodeToken tok key powValidation now =
        Except.error JwtError.ExpiredSignature := by
      unfold decodeToken
      rw [if_pos (by rw [halg]; decide), if_pos (by rw [halg, hsig]), hval]
    simp [pow_decode, from_base64_secret, hkey, hdec]

/-- C3 witness: a validly signed token whose `exp` is 300, decoded at 301. -/
theorem pow_expiry_dominates_witness :
    (∃ err, pow_decode samplePowToken "QUFB" 301 = Except.error err) ∧
    (∀ key, b64decode standardChars "QUFB" = some key →
      samplePowToken.alg = Algorithm.HS256 →
      samplePowToken.sig = Sig.mk Algorithm.HS256 key samplePowToken.claims →
      pow_decode samplePowToken "QUFB" 301 =
        Except.error JwtError.ExpiredSignature) ∧
    "exp" ∈ powValidation.required_spec_claims ∧
    powValidation.validate_exp = true ∧ powValidation.leeway = 0 :=
  pow_expiry_dominates samplePowToken "QUFB" 301 300 (by decide) (by decide)

/-- C4: two distinct proof-of-work rejection kinds — for any validity
predicate, a submission whose token fails decoding classifies exactly as
`InvalidProofOfWork` (carrying the decode error), and one whose token decodes
but whose solution fails the predicate classifies exactly as
`FailedProofOfWork`; each error kind occurs only in its own case. -/
theorem pow_rejection_kinds (is_valid_solution : PowChallenge → Nat → Bool)
    (challenge : Token PowChallenge) (solution : Nat) (k : String)
    (now : Int) :
    (∀ e, pow_decode challenge k now = Except.error e →
      processProofOfWork is_valid_solution challenge solution k now =
        Except.error (ChallengeError.InvalidProofOfWork e)) ∧
    (∀ pc, pow_decode challenge k now = Except.ok pc →
      is_valid_solution pc solution = false →
      processProofOfWork is_valid_solution challenge solution k now =
        Except.error ChallengeError.FailedProofOfWork) ∧
    (∀ e, processProofOfWork is_valid_solution challenge solution k now =
        Except.error (ChallengeError.InvalidProofOfWork e) →
      pow_decode challenge k now = Except.error e) ∧
    (processProofOfWork is_valid_solution challenge solution k now =
        Except.error ChallengeError.FailedProofOfWork →
      ∃ pc, pow_decode challenge k now = Except.ok pc ∧
        is_valid_solution pc solution = false) := by
  refine ⟨?_, ?_, ?_, ?_⟩
  · intro e he
    simp [processProofOfWork, he]
  · intro pc hpc hbad
    simp [processProofOfWork, hpc, hbad]
  · intro e he
    unfold processProofOfWork at he
    cases hd : pow_decode challenge k now with
    | error err =>
      rw [hd] at he
      simp at he
      rw [he]
    | ok pc =>
      rw [hd] at he
      by_cases hv : is_valid_solution pc solution <;> simp [hv] at he
  · intro he
    unfold processProofOfWork at he
    cases hd : pow_decode challenge k now with
    | error err =>
      rw [hd] at he
      simp at he
    | ok pc =>
      rw [hd] at he
      refine ⟨pc, rfl, ?_⟩
      by_cases hv : is_valid_solution pc solution
      · simp [hv] at he
      · exact Bool.eq_false_iff.mpr hv

/-- C4 witness: the classification conjunction at the sample predicate, the
sample token and the mismatched secret "QkJC". -/
theorem pow_rejection_kinds_witness :
    (∀ e, pow_decode samplePowToken "QkJC" 100 = Except.error e →
      processProofOfWork sampleIsValid samplePowToken 0 "QkJC" 100 =
        Except.error (ChallengeError.InvalidProofOfWork e)) ∧
    (∀ pc, pow_decode samplePowToken "QkJC" 100 = Except.ok pc →
      sampleIsValid pc 0 = false →
      processProofOfWork sampleIsValid samplePowToken 0 "QkJC" 100 =
        Except.error ChallengeError.FailedProofOfWork) ∧
    (∀ e, processProofOfWork sampleIsValid samplePowToken 0 "QkJC" 100 =
        Except.error (ChallengeError.InvalidProofOfWork e) →
      pow_decode samplePowToken "QkJC" 100 = Except.error e) ∧
    (processProofOfWork sampleIsValid samplePowToken 0 "QkJC" 100 =
        Except.error ChallengeError.FailedProofOfWork →
      ∃ pc, pow_decode samplePowToken "QkJC" 100 = Except.ok pc ∧
        sampleIsValid pc 0 = false) :=
  pow_rejection_kinds sampleIsValid samplePowToken 0 "QkJC" 100

/-- C6: audience and structural validation of auth tokens — `auth::decode`
succeeds only when the token's raw `aud` claim is present and includes the
canonical service audience and its `iss`, `sub` and `exp` claims are all
present, whatever the signature and expiry. -/
theorem auth_audience_validation (jwt : Token Unit) (dec_key : List Nat)
    (now : Int) (a : AuthClaimsData)
    (h : auth_decode jwt dec_key now = Except.ok a) :
    ∃ l, jwt.claims.aud = some l ∧ SERVICE_AUDIENCE ∈ l ∧
      jwt.claims.iss.isSome = true ∧ jwt.claims.sub.isSome = true ∧
      jwt.claims.exp.isSome = true := by
  unfold auth_decode at h
  cases hd : decodeToken jwt dec_key authValidation now with
  | error err => rw [hd] at h; simp at h
  | ok claims =>
    rw [hd] at h
    have hclaims : claims = jwt.claims := by
      unfold decodeToken at hd
      by_cases ha : jwt.alg ∈ authValidation.algorithms
      · rw [if_pos ha] at hd
        by_cases hs : jwt.sig = { alg := jwt.alg, key := dec_key, signed := jwt.claims }
        · rw [if_pos hs] at hd
          cases hv : validateClaims jwt.claims authValidation now with
          | some err => rw [hv] at hd; exact absurd hd (by simp)
          | none =>
            rw [hv] at hd
            exact (Except.ok.inj hd).symm
        · rw [if_neg hs] at hd
          exact absurd hd (by simp)
      · rw [if_neg ha] at hd
        exact absurd hd (by simp)
    subst hclaims
    have hval : validateClaims jwt.claims authValidation now = none := by
      unfold decodeToken at hd
      by_cases ha : jwt.alg ∈ authValidation.algorithms
      · rw [if_pos ha] at hd
        by_cases hs : jwt.sig = { alg := jwt.alg, key := dec_key, signed := jwt.claims }
        · rw [if_pos hs] at hd
          cases hv : validateClaims jwt.claims authValidation now with
          | some err => rw [hv] at hd; exact absurd hd (by simp)
          | none => rfl
        · rw [if_neg hs] at hd
          exact absurd hd (by simp)
      · rw [if_neg ha] at hd
        exact absurd hd (by simp)
    have hreq : checkRequired jwt.claims authValidation = none := by
      unfold validateClaims at hval
      cases hr : checkRequired jwt.claims authValidation with
      | some err => rw [hr] at hval; simp at hval
      | none => rfl
    have hpresent : ∀ r ∈ authValidation.required_spec_claims,
        jwt.claims.hasSpecClaim r = true := by
      simpa [checkRequired] using hreq
    have haud : jwt.claims.aud.isSome = true := by
      simpa [Claims.hasSpecClaim] using hpresent "aud" (by decide)
    have hiss : jwt.claims.iss.isSome = true := by
      simpa [Claims.hasSpecClaim] using hpresent "iss" (by decide)
    have hsub : jwt.claims.sub.isSome = true := by
      simpa [Claims.hasSpecClaim] using hpresent "sub" (by decide)
    have hexp : jwt.claims.exp.isSome = true := by
      simpa [Claims.hasSpecClaim] using hpresent "exp" (by decide)
    obtain ⟨l, hl⟩ := Option.isSome_iff_exists.mp haud
    refine ⟨l, hl, ?_, hiss, hsub, hexp⟩
    have hcheck : checkAud jwt.claims authValidation = none := by
      unfold validateClaims at hval
      rw [hreq] at hval
      cases hce : checkExp jwt.claims authValidation now with
      | some err => rw [hce] at hval; simp at hval
      | none => rw [hce] at hval; exact hval
    have hany : l.any (fun x => [SERVICE_AUDIENCE].contains x) = true := by
      by_contra hno
      have hbad : checkAud jwt.claims authValidation = some JwtError.InvalidAudience := by
        have hauth : authValidation.aud = some [SERVICE_AUDIENCE] := by decide
        have hauth2 : authValidation.validate_aud = true := by decide
        simp only [checkAud, hauth, hauth2, hl, if_true]
        simpa using hno
      rw [hbad] at hcheck
      exact absurd hcheck (by simp)
    obtain ⟨x, hx, hmem⟩ := List.any_eq_true.mp hany
    have hxs : x = SERVICE_AUDIENCE := by simpa using hmem
    exact hxs ▸ hx

/-- C6 witness: the sample auth token, which decodes successfully. -/
theorem auth_audience_validation_witness :
    ∃ l, sampleAuthToken.claims.aud = some l ∧ SERVICE_AUDIENCE ∈ l ∧
      sampleAuthToken.claims.iss.isSome = true ∧
      sampleAuthToken.claims.sub.isSome = true ∧
      sampleAuthToken.claims.exp.isSome = true :=
  auth_audience_validation sampleAuthToken [1, 2, 3] 50
    { aud := [SERVICE_AUDIENCE], sub := "user", iss := "issuer" }
    (by decide)

/-- C5 counterexample: the empty string is valid base64 decoding to 0 bytes —
not 48 — yet `try_from` accepts it, refuting the exact-key-size reading. -/
theorem base64_exact_size_counterexample :
    Base64.tryFrom Alpha.standard "" = Except.ok (Base64.mk "") ∧
    b64decode standardChars "" = some [] ∧
    (List.length ([] : List Nat)) ≠ KEY_SIZE := by
  refine ⟨by decide, by decide, by decide⟩

/-- C5 (amended): `try_from` succeeds exactly when the string is valid
canonical base64 under the alphabet and decodes to at most `KEY_SIZE` bytes
(the `decode_slice` buffer check); invalid strings and longer decodes are
rejected, and the function is total (never panics). -/
theorem base64_key_size_validation (A : Alpha) (s : String) :
    (Base64.tryFrom A s).isOk = true ↔
      ∃ bs, decodeChunks A.chars s.data = some bs ∧ bs.length ≤ KEY_SIZE := by
  constructor
  · intro hok
    unfold Base64.tryFrom decode_slice at hok
    split at hok
    · simp [Except.map, Except.isOk, Except.toBool] at hok
    · next hbuf =>
      cases hdec : decodeChunks A.chars s.data with
      | none => rw [hdec] at hok; simp [Except.map, Except.isOk, Except.toBool] at hok
      | some bs =>
        obtain ⟨hm, hlo, hhi⟩ := decodeChunks_length A.chars s.data bs hdec
        refine ⟨bs, rfl, ?_⟩
        have hlen : s.length = s.data.length := rfl
        rw [hlen] at hbuf
        simp only [KEY_SIZE] at hbuf ⊢
        omega
  · rintro ⟨bs, hdec, hle⟩
    obtain ⟨hm, hlo, hhi⟩ := decodeChunks_length A.chars s.data bs hdec
    unfold Base64.tryFrom decode_slice
    rw [if_neg ?hbuf, hdec]
    case hbuf =>
      have hlen : s.length = s.data.length := rfl
      rw [hlen]
      simp only [KEY_SIZE] at hle ⊢
      omega
    simp [Except.map, Except.isOk, Except.toBool]

/-- Characters cleanly printable inside Rust's `Debug` string rendering. -/
def cleanChars (s : String) : Prop :=
  ∀ c ∈ s.data, c ≠ '"' ∧ c ≠ '\\'

instance (s : String) : Decidable (cleanChars s) := by
  unfold cleanChars
  infer_instance

/-- Escaping is the identity on clean strings. -/
theorem escapeDebugStr_clean (s : String) (hclean : cleanChars s) :
    escapeDebugStr s = s := by
  unfold escapeDebugStr
  have hflat : ∀ l : List Char, (∀ c ∈ l, c ≠ '"' ∧ c ≠ '\\') →
      (l.map escapeDebugChar).flatten = l := by
    intro l hl
    induction l with
    | nil => rfl
    | cons c cs ih =>
      have hc := hl c (by simp)
      simp only [List.map_cons, List.flatten_cons]
      rw [ih fun x hx => hl x (by simp [hx])]
      simp [escapeDebugChar, hc.1, hc.2]
  rw [hflat s.data hclean]

/-- C7 counterexample: the `Debug` rendering of a concrete key contains the
encoded secret verbatim and differs from the `DebugSecret` placeholder. -/
theorem base64_debug_counterexample :
    (∃ pre post, (debugFmt Alpha.standard (Base64.mk "c2VjcmV0")).data =
      pre ++ "c2VjcmV0".data ++ post) ∧
    debugFmt Alpha.standard (Base64.mk "c2VjcmV0") ≠
      debugSecretFmt Alpha.standard (Base64.mk "c2VjcmV0") := by
  exact ⟨⟨"Base64<Standard>(\"".data, "\")".data, by decide⟩, by decide⟩

/-- C7 (amended): under either alphabet the `Debug` impl renders
`Base64<...>("...")` with the wrapped secret embedded (verbatim whenever it
needs no escaping); the opaque placeholder is produced only by the
`secrecy::DebugSecret` rendering used inside a `Secret` wrapper. -/
theorem base64_debug_renders_secret (A : Alpha) (b : Base64 A)
    (hclean : cleanChars b.s) :
    (∃ pre post, (debugFmt A b).data = pre ++ b.s.data ++ post) ∧
    debugSecretFmt A b = "[REDACTED]" := by
  refine ⟨?_, rfl⟩
  cases A with
  | standard =>
    refine ⟨"Base64<Standard>(\"".data, "\")".data, ?_⟩
    show (("Base64<Standard>(\"" ++ escapeDebugStr b.s) ++ "\")").data = _
    rw [escapeDebugStr_clean b.s hclean]
    simp [String.data_append]
  | urlSafe =>
    refine ⟨"Base64<UrlSafe>(\"".data, "\")".data, ?_⟩
    show (("Base64<UrlSafe>(\"" ++ escapeDebugStr b.s) ++ "\")").data = _
    rw [escapeDebugStr_clean b.s hclean]
    simp [String.data_append]

/-- C7 witness: the amended statement at a concrete clean secret. -/
theorem base64_debug_renders_secret_witness :
    (∃ pre post, (debugFmt Alpha.urlSafe (Base64.mk "c2VjcmV0")).data =
      pre ++ (Base64.mk (A := Alpha.urlSafe) "c2VjcmV0").s.data ++ post) ∧
    debugSecretFmt Alpha.urlSafe (Base64.mk "c2VjcmV0") = "[REDACTED]" :=
  base64_debug_renders_secret Alpha.urlSafe (Base64.mk "c2VjcmV0") (by decide)

/-- C8 counterexample: a named value-range constraint violation entering the
console context is not reclassified as invalid input — it stays in the
generic `Unexpected` variant and renders as a 500 — refuting the claim that
the value-range mapping is applied uniformly across console and admin. -/
theorem db_reclass_uniform_counterexample :
    consoleFromDb (DbError.Constraint (DbSource.mk (some "dims_range"))
        ConstraintKind.ValueRange) =
      some (ConsoleError.Unexpected (AnyError.db (DbError.Constraint
        (DbSource.mk (some "dims_range")) ConstraintKind.ValueRange))) ∧
    (¬ ∃ w, consoleFromDb (DbError.Constraint (DbSource.mk (some "dims_range"))
        ConstraintKind.ValueRange) = some (ConsoleError.InvalidInput w)) ∧
    consoleIntoResponse (ConsoleError.Unexpected (AnyError.db
        (DbError.Constraint (DbSource.mk (some "dims_range"))
          ConstraintKind.ValueRange))) = some (Response.mk 500) := by
  refine ⟨by decide, ?_, by decide⟩
  rintro ⟨w, hw⟩
  simp [consoleFromDb] at hw

/-- C8 (amended): storage-constraint reclassification is per-context, not
uniform.  Console: the foreign-key constraint `api_key_console_id_fkey` maps
to forbidden and the uniqueness/primary-key constraints
`api_key_secret_unique` / `api_key_pkey` map to duplicate, while value-range
violations stay unexpected.  Admin: any value-range violation maps to invalid
dimensions and the primary-key constraint `challenge_pkey` to the
duplicate-resource error.  In both contexts an unrecognized constraint
violation stays in the unexpected variant, which renders as a generic 500. -/
theorem db_reclassification (source : DbSource) :
    (source.constraint = some "api_key_console_id_fkey" →
      consoleFromDb (DbError.Constraint source ConstraintKind.ForeignKey) =
        some ConsoleError.Forbidden) ∧
    (∀ name, source.constraint = some name →
      (name = "api_key_secret_unique" ∨ name = "api_key_pkey") →
      consoleFromDb (DbError.Constraint source ConstraintKind.PrimaryKey) =
          some ConsoleError.Duplicate ∧
        consoleFromDb (DbError.Constraint source ConstraintKind.UniqueKey) =
          some ConsoleError.Duplicate) ∧
    consoleFromDb (DbError.Constraint source ConstraintKind.ValueRange) =
      some (ConsoleError.Unexpected (AnyError.db
        (DbError.Constraint source ConstraintKind.ValueRange))) ∧
    adminFromDb (DbError.Constraint source ConstraintKind.ValueRange) =
      some AdminError.InvalidDimensions ∧
    (source.constraint = some "challenge_pkey" →
      adminFromDb (DbError.Constraint source ConstraintKind.PrimaryKey) =
        some (AdminError.NotUnique "Challenge url")) ∧
    (∀ db_err, consoleFromDb db_err =
        some (ConsoleError.Unexpected (AnyError.db db_err)) →
      consoleIntoResponse (ConsoleError.Unexpected (AnyError.db db_err)) =
        some (Response.mk 500)) ∧
    (∀ db_err, adminFromDb db_err =
        some (AdminError.Unexpected (AnyError.db db_err)) →
      adminIntoResponse (AdminError.Unexpected (AnyError.db db_err)) =
        some (Response.mk 500)) := by
  refine ⟨?_, ?_, ?_, ?_, ?_, ?_, ?_⟩
  · intro h
    simp [consoleFromDb, h]
  · intro name h hname
    cases hname with
    | inl h1 => subst h1; simp [consoleFromDb, h]
    | inr h2 => subst h2; simp [consoleFromDb, h]
  · rfl
  · rfl
  · intro h
    simp [adminFromDb, h]
  · intro db_err h
    simp [consoleIntoResponse, try_unwrap_db_error, AnyError.downcastDb, h,
      consoleClassifiedResponse]
  · intro db_err h
    simp [adminIntoResponse, try_unwrap_db_error, AnyError.downcastDb, h,
      adminClassifiedResponse]

/-- Marker for the classified (non-`Unexpected`) challenge variants. -/
def ChallengeError.classified : ChallengeError → Bool
  | ChallengeError.Unexpected _ => false
  | _ => true

/-- Marker for the classified (non-`Unexpected`) console variants. -/
def ConsoleError.classified : ConsoleError → Bool
  | ConsoleError.Unexpected _ => false
  | _ => true

/-- C9 counterexample: `ConsoleError::Duplicate` is a classified domain error
yet renders `INTERNAL_SERVER_ERROR` (500), which is not a 4xx status. -/
theorem console_duplicate_status_counterexample :
    ConsoleError.Duplicate.classified = true ∧
    consoleIntoResponse ConsoleError.Duplicate = some (Response.mk 500) ∧
    ¬ is4xx (Response.mk 500) := by
  refine ⟨rfl, rfl, by decide⟩

/-- C9 (amended): every classified challenge variant renders a 4xx status,
and every classified console variant except `Duplicate` does; `Duplicate`
renders 500, as do unexpected errors that carry no recognized storage
failure. -/
theorem error_status_classes :
    (∀ e : ChallengeError, e.classified = true →
      ∃ r, challengeIntoResponse e = some r ∧ is4xx r) ∧
    (∀ e : ConsoleError, e.classified = true → e ≠ ConsoleError.Duplicate →
      ∃ r, consoleIntoResponse e = some r ∧ is4xx r) ∧
    consoleIntoResponse ConsoleError.Duplicate = some (Response.mk 500) ∧
    (∀ m, challengeIntoResponse (ChallengeError.Unexpected (AnyError.other m)) =
      some (Response.mk 500)) ∧
    (∀ m, consoleIntoResponse (ConsoleError.Unexpected (AnyError.other m)) =
      some (Response.mk 500)) := by
  refine ⟨?_, ?_, rfl, fun m => rfl, fun m => rfl⟩
  · intro e he
    cases e with
    | InvalidKey => exact ⟨Response.mk 403, rfl, by decide⟩
    | InvalidOrigin => exact ⟨Response.mk 422, rfl, by decide⟩
    | InvalidProofOfWork err => exact ⟨Response.mk 400, rfl, by decide⟩
    | FailedProofOfWork => exact ⟨Response.mk 400, rfl, by decide⟩
    | NoMatchingChallenge => exact ⟨Response.mk 404, rfl, by decide⟩
    | DomainNotAllowed => exact ⟨Response.mk 403, rfl, by decide⟩
    | Unexpected a => simp [ChallengeError.classified] at he
  · intro e he hne
    cases e with
    | NotFound w => exact ⟨Response.mk 404, rfl, by decide⟩
    | Forbidden => exact ⟨Response.mk 403, rfl, by decide⟩
    | Duplicate => exact absurd rfl hne
    | InvalidInput w => exact ⟨Response.mk 422, rfl, by decide⟩
    | Unexpected a => simp [ConsoleError.classified] at he

/-- C10: totality of the console conversion — `From<db::Error>` for
`ConsoleError` panics (models as `none`, from the `unwrap` in the first
arm's guard) exactly on a foreign-key constraint violation whose source
names no constraint, and returns a `ConsoleError` on every other input. -/
theorem console_conversion_totality (db_err : DbError) :
    consoleFromDb db_err = none ↔
      ∃ source, db_err = DbError.Constraint source ConstraintKind.ForeignKey ∧
        source.constraint = none := by
  constructor
  · intro h
    cases db_err with
    | Constraint source kind =>
      cases kind with
      | ForeignKey =>
        cases hc : source.constraint with
        | none => exact ⟨source, rfl, hc⟩
        | some name =>
          by_cases hn : name = "api_key_console_id_fkey" <;>
            simp [consoleFromDb, hc, hn] at h
      | PrimaryKey =>
        cases hc : source.constraint with
        | none => simp [consoleFromDb, hc] at h
        | some name =>
          by_cases hn : name = "api_key_secret_unique" ∨ name = "api_key_pkey" <;>
            simp [consoleFromDb, hc, hn] at h
      | UniqueKey =>
        cases hc : source.constraint with
        | none => simp [consoleFromDb, hc] at h
        | some name =>
          by_cases hn : name = "api_key_secret_unique" ∨ name = "api_key_pkey" <;>
            simp [consoleFromDb, hc, hn] at h
      | ValueRange => simp [consoleFromDb] at h
    | Other m => simp [consoleFromDb] at h
  · rintro ⟨source, rfl, hc⟩
    simp [consoleFromDb, hc]

end Gotcha
